import Mathlib

/-!
Verification development for the combat-resolution core of the AncientBeast
repository (creature stats, effects, healing/damage, turn queue).

The TypeScript sources are embedded shallowly:
* JavaScript numbers are modelled as exact rationals (`ℚ`); the one place the
  code distinguishes non-finite numbers (`isFinite` in `Creature.takeDamage`)
  uses an explicit `JSNum` type.
* Stateful methods become pure functions `State → State × ...`; UI calls,
  Phaser animation and logging become entries of an emitted event list.
* Object identity (`indexOf`/`splice` on effect objects) is modelled through
  the auto-incrementing `id` field every `Effect` carries.
-/

namespace AncientBeast

/-- JavaScript `Math.round`: round half toward positive infinity. -/
def jsRound (q : ℚ) : ℤ := ⌊q + 1/2⌋

/-- Numeric stat keys of `CreatureStats` (creature.ts). The two boolean
flags `moveable` and `fatigueImmunity` are carried separately. -/
inductive StatKey
  | health | endurance | energy | movement
  | regrowth | meditation | initiative | offense | defense
  | pierce | slash | crush | shock | burn | frost | poison | sonic | mental
  | reqEnergy
deriving DecidableEq, Repr

/-- Boolean stat keys of `CreatureStats`. -/
inductive BoolStatKey
  | moveable | fatigueImmunity
deriving DecidableEq, Repr

/-- The `CreatureStats` record of creature.ts: numeric stats plus the two
boolean flags. -/
structure CreatureStats where
  num : StatKey → ℚ
  moveable : Bool
  fatigueImmunity : Bool

/-- Point update of the numeric stat table (`this.stats[stat] = v`). -/
def setStat (f : StatKey → ℚ) (k : StatKey) (v : ℚ) : StatKey → ℚ :=
  fun k' => if k' = k then v else f k'

/-- One entry of a `CreatureAlterations` map. The source stores
`number | string | boolean` values; a string containing `*` (resp. `/`) is
evaluated as `this.stats[stat] <op> operand`, so it is modelled as a
multiplication (resp. division) by a rational operand, a number overwrites the
stat, and a boolean overwrites one of the boolean flags. -/
inductive AlterationEntry
  | num (k : StatKey) (v : ℚ)
  | mult (k : StatKey) (v : ℚ)
  | divi (k : StatKey) (v : ℚ)
  | boolv (k : BoolStatKey) (b : Bool)
deriving Repr

/-- Apply one alteration entry to the running stat record, as the inner loop
of `Creature.updateAlteration` does. -/
def applyEntry (s : CreatureStats) : AlterationEntry → CreatureStats
  | .num k v => { s with num := setStat s.num k v }
  | .mult k v => { s with num := setStat s.num k (s.num k * v) }
  | .divi k v => { s with num := setStat s.num k (s.num k / v) }
  | .boolv .moveable b => { s with moveable := b }
  | .boolv .fatigueImmunity b => { s with fatigueImmunity := b }

/-- Target of an `Effect`: a creature (referenced by id) or a hex
(hex-staged trap effects; no creature state is attached). -/
inductive EffTarget
  | creature (id : ℕ)
  | hex
deriving DecidableEq, Repr

/-- The `Effect` class (effect.ts): identity, stacking key (`name`),
alteration map and lifetime bookkeeping. Reactive hooks (`requireFn` /
`effectFn`) are behaviour supplied by abilities and are outside the claims. -/
structure Effect where
  id : ℕ
  name : String
  ownerId : ℕ
  target : EffTarget
  trigger : String := ""
  alterations : List AlterationEntry := []
  creationTurn : ℤ := 0
  turnLifetime : ℤ := 0
  deleteTrigger : String := "onStartOfRound"
  stackable : Bool := true
  noLog : Bool := false
  specialHint : Option String := none
  deleteOnOwnerDeath : Bool := false
deriving Repr

/-- The `Drop` class (drop.ts): a permanent alteration bundle. -/
structure Drop where
  id : ℕ
  name : String
  alterations : List AlterationEntry := []
deriving Repr

/-- The parts of the `Creature` class (creature.ts) the claims are about:
identity, the immutable `baseStats`, the derived `stats`, the four depletable
pools, the effect and drop lists, and the `dead` / `delayed` flags. -/
structure Creature where
  id : ℕ
  baseStats : CreatureStats
  stats : CreatureStats
  health : ℚ
  endurance : ℚ
  energy : ℚ
  remainingMove : ℚ
  effects : List Effect := []
  dropCollection : List Drop := []
  dead : Bool := false
  delayed : Bool := false

/-- Alteration entries contributed by a creature's effects followed by its
drops (`buffDebuffArray = [...this.effects, ...this.dropCollection]`). -/
def buffDebuffEntries (c : Creature) : List AlterationEntry :=
  (c.effects.map Effect.alterations ++ c.dropCollection.map Drop.alterations).flatten

/-- Pure part of `Creature.updateAlteration`: rebuild the stat record from
`baseStats` by folding every contributed alteration, then floor the four pool
maxima at 1. -/
def recomputeStats (base : CreatureStats) (entries : List AlterationEntry) :
    CreatureStats :=
  let s := entries.foldl applyEntry base
  -- Maximum stat pools cannot be lower than 1.
  let n1 := setStat s.num .health (max (s.num .health) 1)
  let n2 := setStat n1 .endurance (max (n1 .endurance) 1)
  let n3 := setStat n2 .energy (max (n2 .energy) 1)
  let n4 := setStat n3 .movement (max (n3 .movement) 1)
  { s with num := n4 }

/-- `Creature.updateAlteration`: recompute `stats` from `baseStats` and the
active effects/drops, then cap each current pool at its recomputed maximum. -/
def Creature.updateAlteration (c : Creature) : Creature :=
  let s := recomputeStats c.baseStats (buffDebuffEntries c)
  { c with
    stats := s
    -- These stats cannot exceed their maximum values.
    health := min c.health (s.num .health)
    endurance := min c.endurance (s.num .endurance)
    energy := min c.energy (s.num .energy)
    remainingMove := min c.remainingMove (s.num .movement) }

/-- Observable side effects of the creature operations: player-visible hints,
log lines, console diagnostics and fired game triggers. Numeric interpolations
inside display strings are elided (only the static template is kept); no claim
depends on them except the literal "Error" hint and its log line. -/
inductive GameEvent
  | hint (text : String) (cls : String)
  | log (message : String)
  | onHeal (creatureId : ℕ) (amount : ℚ)
  | onEffectAttach (creatureId : ℕ) (effectId : ℕ)
  | onUnderAttack (creatureId : ℕ)
  | onAttack (attackerId : ℕ)
  | onDamage (creatureId : ℕ)
  | onCreatureDeath (creatureId : ℕ)
  | consoleWarn (message : String)
  | consoleInfo (message : String)
deriving DecidableEq, Repr

/-- `Creature.heal(amount, isRegrowth, log)`: cap the amount against
`stats.health - health`, apply the "Cap to 1hp" branch, add the (possibly
re-capped) amount to `health`, emit the hint/log for its sign, and finally
fire the heal trigger (`game.onHeal`). UI refresh (`updateHealth`) is
elided. -/
def Creature.heal (c : Creature) (amount : ℚ) (isRegrowth : Bool)
    (log : Bool := true) : Creature × List GameEvent :=
  -- Cap health point
  let amount1 := min amount (c.stats.num .health - c.health)
  -- if (this.health + amount < 1) { amount = this.health - 1; } // Cap to 1hp
  let amount2 := if c.health + amount1 < 1 then c.health - 1 else amount1
  let c' := { c with health := c.health + amount2 }
  let evs :=
    if 0 < amount2 then
      [GameEvent.hint (if isRegrowth then "+ regrowth" else "+") "healing"] ++
        (if log then [GameEvent.log "recovers health"] else [])
    else if amount2 = 0 then
      [GameEvent.hint (if isRegrowth then "diamond" else "!") "msg_effects"]
    else
      [GameEvent.hint (if isRegrowth then "- regrowth" else "-") "damage"] ++
        (if log then [GameEvent.log "loses health"] else [])
  (c', evs ++ [GameEvent.onHeal c.id amount2])

/-- `Creature.recharge(amount, log)`: `energy = Math.min(stats.energy, energy + amount)`. -/
def Creature.recharge (c : Creature) (amount : ℚ) (log : Bool := true) :
    Creature × List GameEvent :=
  ({ c with energy := min (c.stats.num .energy) (c.energy + amount) },
    if log then [GameEvent.log "recovers energy"] else [])

/-- `Creature.restoreEndurance(amount, log)`: cap against `stats.endurance`. -/
def Creature.restoreEndurance (c : Creature) (amount : ℚ) (log : Bool := true) :
    Creature × List GameEvent :=
  ({ c with endurance := min (c.stats.num .endurance) (c.endurance + amount) },
    if log then [GameEvent.log "recovers endurance"] else [])

/-- `Creature.restoreMovement(amount, log)`: cap against `stats.movement`. -/
def Creature.restoreMovement (c : Creature) (amount : ℚ) (log : Bool := true) :
    Creature × List GameEvent :=
  ({ c with remainingMove := min (c.stats.num .movement) (c.remainingMove + amount) },
    if log then [GameEvent.log "recovers movement"] else [])

/-- `Creature.getInitiative()`: `this.stats.initiative * 500 - this.id`
("To avoid 2 identical initiative"). -/
def Creature.getInitiative (c : Creature) : ℚ :=
  c.stats.num .initiative * 500 - c.id

/-- Constant stat table used for concrete test creatures. -/
def constStats (q : ℚ) : CreatureStats :=
  { num := fun _ => q, moveable := true, fatigueImmunity := false }

theorem setStat_same (f : StatKey → ℚ) (k : StatKey) (v : ℚ) :
    setStat f k v k = v := by simp [setStat]

theorem recomputeStats_health (base : CreatureStats)
    (entries : List AlterationEntry) :
    1 ≤ (recomputeStats base entries).num .health := by
  simp [recomputeStats, setStat]

theorem recomputeStats_endurance (base : CreatureStats)
    (entries : List AlterationEntry) :
    1 ≤ (recomputeStats base entries).num .endurance := by
  simp [recomputeStats, setStat]

theorem recomputeStats_energy (base : CreatureStats)
    (entries : List AlterationEntry) :
    1 ≤ (recomputeStats base entries).num .energy := by
  simp [recomputeStats, setStat]

theorem recomputeStats_movement (base : CreatureStats)
    (entries : List AlterationEntry) :
    1 ≤ (recomputeStats base entries).num .movement := by
  simp [recomputeStats, setStat]

/-- Claim C1: after `Creature.updateAlteration` runs — whatever the active
effects and drops contribute — each of the four pool maxima
(`stats.health/endurance/energy/movement`) is at least 1, and each current
pool (`health`, `endurance`, `energy`, `remainingMove`) is at most its
corresponding recomputed maximum. -/
theorem updateAlteration_pool_invariants (c : Creature) :
    1 ≤ (c.updateAlteration).stats.num .health ∧
    1 ≤ (c.updateAlteration).stats.num .endurance ∧
    1 ≤ (c.updateAlteration).stats.num .energy ∧
    1 ≤ (c.updateAlteration).stats.num .movement ∧
    (c.updateAlteration).health ≤ (c.updateAlteration).stats.num .health ∧
    (c.updateAlteration).endurance ≤ (c.updateAlteration).stats.num .endurance ∧
    (c.updateAlteration).energy ≤ (c.updateAlteration).stats.num .energy ∧
    (c.updateAlteration).remainingMove ≤ (c.updateAlteration).stats.num .movement := by
  refine ⟨?_, ?_, ?_, ?_, ?_, ?_, ?_, ?_⟩ <;>
    simp [Creature.updateAlteration, recomputeStats_health,
      recomputeStats_endurance, recomputeStats_energy, recomputeStats_movement,
      min_le_right]

/-- `Creature.findEffect(name)`: all attached effects with the given name. -/
def Creature.findEffect (c : Creature) (name : String) : List Effect :=
  c.effects.filter (fun e => e.name == name)

/-- Result of `Creature.addEffect`: `ok = false` is the explicit `return
false` of the rejection branch (the success path returns `undefined`, which is
modelled as `true`); `creature` and `effect` are the post-call states of the
receiver and of the incoming effect object. -/
structure AddEffectResult where
  ok : Bool
  creature : Creature
  effect : Effect
  events : List GameEvent

/-- `Creature.addEffect(effect, specialString?, specialHint?, disableLog,
disableHint)`: refuse a non-stackable effect whose name is already present;
otherwise set the effect's target to this creature, push it, fire
`onEffectAttach`, recompute stats via `updateAlteration`, and (for named
effects) emit the hint and log line. -/
def Creature.addEffect (c : Creature) (effect : Effect)
    (specialString : Option String := none)
    (specialHint : Option String := none)
    (disableLog : Bool := false) (disableHint : Bool := false) :
    AddEffectResult :=
  if !effect.stackable && (c.findEffect effect.name).length ≠ 0 then
    { ok := false, creature := c, effect := effect, events := [] }
  else
    let effect' := { effect with target := EffTarget.creature c.id }
    let c1 := { c with effects := c.effects ++ [effect'] }
    let c2 := c1.updateAlteration
    let hintEvs :=
      if effect.name ≠ "" ∧ ¬disableHint then
        if specialHint.isSome || effect.specialHint.isSome then
          [GameEvent.hint (specialHint.getD "undefined") "msg_effects"]
        else
          [GameEvent.hint effect.name "msg_effects"]
      else []
    let logEvs :=
      if effect.name ≠ "" ∧ ¬disableLog then
        [GameEvent.log (specialString.getD "is affected by effect")]
      else []
    { ok := true, creature := c2, effect := effect',
      events := [GameEvent.onEffectAttach c.id effect.id] ++ hintEvs ++ logEvs }

/-- Claim C6: adding a non-stackable effect to a creature that already has an
active non-stackable effect of the same name returns failure (`false`) and
performs no mutation: the creature (effect list, stats, pools) and the
incoming effect (in particular its target) are returned unchanged, and no
event fires. -/
theorem addEffect_rejects_nonstackable_duplicate (c : Creature) (e dup : Effect)
    (hdup : dup ∈ c.effects) (hname : dup.name = e.name)
    (hdupstack : dup.stackable = false) (hstack : e.stackable = false) :
    (c.addEffect e).ok = false ∧
    (c.addEffect e).creature = c ∧
    (c.addEffect e).effect = e ∧
    (c.addEffect e).events = [] := by
  have hfind : (c.findEffect e.name).length ≠ 0 := by
    have hmem : dup ∈ c.findEffect e.name := by
      simp [Creature.findEffect, List.mem_filter, hdup, hname]
    intro hlen
    rw [List.length_eq_zero] at hlen
    simp [hlen] at hmem
  simp [Creature.addEffect, hstack, hfind]

/-- Non-stackable effect named "X" already attached to the test creature. -/
def dupEffectX : Effect :=
  { id := 11, name := "X", ownerId := 7, target := EffTarget.creature 9,
    stackable := false }

/-- Incoming non-stackable effect also named "X". -/
def newEffectX : Effect :=
  { id := 12, name := "X", ownerId := 7, target := EffTarget.hex,
    stackable := false }

/-- Creature that already carries `dupEffectX`. -/
def creatureWithX : Creature :=
  { id := 9, baseStats := constStats 20, stats := constStats 20,
    health := 20, endurance := 20, energy := 20, remainingMove := 0,
    effects := [dupEffectX] }

theorem addEffect_rejects_nonstackable_duplicate_witness :
    (dupEffectX ∈ creatureWithX.effects ∧ dupEffectX.name = newEffectX.name ∧
      dupEffectX.stackable = false ∧ newEffectX.stackable = false) ∧
    ((creatureWithX.addEffect newEffectX).ok = false ∧
      (creatureWithX.addEffect newEffectX).creature = creatureWithX ∧
      (creatureWithX.addEffect newEffectX).effect = newEffectX ∧
      (creatureWithX.addEffect newEffectX).events = []) :=
  ⟨⟨by simp [creatureWithX], rfl, rfl, rfl⟩,
    addEffect_rejects_nonstackable_duplicate creatureWithX newEffectX dupEffectX
      (by simp [creatureWithX]) rfl rfl rfl⟩

/-- Game-level state needed by the effect claims: the current turn, the
auto-incrementing effect id counter, the global effect registry and the target
creature under consideration. -/
structure GameState where
  turn : ℤ
  effectId : ℕ := 0
  effects : List Effect := []
  creature : Creature

/-- `EffectOptions` (effect.ts): per-field overrides merged over the defaults
with `Object.assign`; `none` means the field was not supplied. The reactive
`requireFn`/`effectFn` overrides carry behaviour, not state, and are not
modelled. -/
structure EffectOptions where
  trigger : Option String := none
  alterations : Option (List AlterationEntry) := none
  turnLifetime : Option ℤ := none
  deleteTrigger : Option String := none
  stackable : Option Bool := none
  noLog : Option Bool := none
  specialHint : Option String := none
  deleteOnOwnerDeath : Option Bool := none

/-- The `Effect` constructor: assign the next auto-incrementing id, record the
creation turn, merge the defaults (`turnLifetime 0`, `deleteTrigger
"onStartOfRound"`, `stackable true`, `noLog false`, ...) with the passed
options, and push the new effect onto the global registry. -/
def Effect.create (g : GameState) (name : String) (ownerId : ℕ)
    (target : EffTarget) (opts : EffectOptions := {}) : Effect × GameState :=
  let e : Effect :=
    { id := g.effectId
      name := name
      ownerId := ownerId
      target := target
      trigger := opts.trigger.getD ""
      creationTurn := g.turn
      alterations := opts.alterations.getD []
      turnLifetime := opts.turnLifetime.getD 0
      deleteTrigger := opts.deleteTrigger.getD "onStartOfRound"
      stackable := opts.stackable.getD true
      noLog := opts.noLog.getD false
      specialHint := opts.specialHint
      deleteOnOwnerDeath := opts.deleteOnOwnerDeath.getD false }
  (e, { g with effectId := g.effectId + 1, effects := g.effects ++ [e] })

theorem updateAlteration_effects (c : Creature) :
    (c.updateAlteration).effects = c.effects := rfl

/-- Claim C10: an `Effect` constructed without an explicit `stackable` option
has `stackable = true`; any two stackable effects (same name or not) can both
be attached to the same creature through `addEffect`; and `addEffect` rejects
an attach only for an effect explicitly marked `stackable = false`. -/
theorem effect_default_stackable (g : GameState) (name : String) (ownerId : ℕ)
    (target : EffTarget) (opts : EffectOptions) (hs : opts.stackable = none)
    (c : Creature) (e1 e2 : Effect)
    (h1 : e1.stackable = true) (h2 : e2.stackable = true) :
    (Effect.create g name ownerId target opts).1.stackable = true ∧
    (((c.addEffect e1).creature.addEffect e2).ok = true ∧
      ((c.addEffect e1).creature.addEffect e2).creature.effects.length
        = c.effects.length + 2) ∧
    (∀ (c' : Creature) (e' : Effect),
      (c'.addEffect e').ok = false → e'.stackable = false) := by
  refine ⟨by simp [Effect.create, hs], ?_, ?_⟩
  · have step : ∀ (d : Creature) (e : Effect), e.stackable = true →
        (d.addEffect e).ok = true ∧
          (d.addEffect e).creature.effects.length = d.effects.length + 1 := by
      intro d e he
      simp [Creature.addEffect, he, updateAlteration_effects]
    obtain ⟨hok1, hlen1⟩ := step c e1 h1
    obtain ⟨hok2, hlen2⟩ := step (c.addEffect e1).creature e2 h2
    exact ⟨hok2, by rw [hlen2, hlen1]⟩
  · intro c' e' hko
    by_contra hne
    rw [Bool.not_eq_false] at hne
    simp [Creature.addEffect, hne] at hko

/-- Effect options that do not mention `stackable`. -/
def plainOpts : EffectOptions := { turnLifetime := some 2 }

/-- Two stackable effects sharing the name "Y". -/
def stackEffect1 : Effect :=
  { id := 21, name := "Y", ownerId := 7, target := EffTarget.hex }

def stackEffect2 : Effect :=
  { id := 22, name := "Y", ownerId := 7, target := EffTarget.hex }

/-- Concrete game state used by the constructor witnesses. -/
def testGame : GameState :=
  { turn := 3, effectId := 0, effects := [], creature := creatureWithX }

theorem effect_default_stackable_witness :
    (plainOpts.stackable = none ∧ stackEffect1.stackable = true ∧
      stackEffect2.stackable = true) ∧
    ((Effect.create testGame "Z" 7 EffTarget.hex plainOpts).1.stackable = true ∧
      (((creatureWithX.addEffect stackEffect1).creature.addEffect
            stackEffect2).ok = true ∧
        ((creatureWithX.addEffect stackEffect1).creature.addEffect
              stackEffect2).creature.effects.length
          = creatureWithX.effects.length + 2) ∧
      (∀ (c' : Creature) (e' : Effect),
        (c'.addEffect e').ok = false → e'.stackable = false)) :=
  ⟨⟨rfl, rfl, rfl⟩,
    effect_default_stackable testGame "Z" 7 EffTarget.hex plainOpts rfl
      creatureWithX stackEffect1 stackEffect2 rfl rfl⟩

/-- JavaScript number: the damage pipeline distinguishes finite values, the
infinities and `NaN` (`isFinite` in `Creature.takeDamage`; `NaN` arises in
`Damage.applyDamage` from undefined stat lookups for the special type). -/
inductive JSNum
  | fin (q : ℚ)
  | posInf
  | negInf
  | nan
deriving DecidableEq, Repr

def JSNum.isFinite : JSNum → Bool
  | .fin _ => true
  | _ => false

/-- JavaScript `+` on numbers: `NaN` propagates, opposite infinities give
`NaN`. -/
def JSNum.add : JSNum → JSNum → JSNum
  | .nan, _ => .nan
  | _, .nan => .nan
  | .fin a, .fin b => .fin (a + b)
  | .posInf, .negInf => .nan
  | .posInf, _ => .posInf
  | .negInf, .posInf => .nan
  | .negInf, _ => .negInf
  | .fin _, .posInf => .posInf
  | .fin _, .negInf => .negInf

/-- JavaScript `Math.max` on two numbers: `NaN` if either argument is `NaN`. -/
def jsMax : JSNum → JSNum → JSNum
  | .nan, _ => .nan
  | _, .nan => .nan
  | .fin a, .fin b => .fin (max a b)
  | .posInf, _ => .posInf
  | _, .posInf => .posInf
  | .negInf, b => b
  | a, .negInf => a

/-- The `DamageType` enum of the `Damage` source document (pure, frost, burn,
poison, mental, sonic, pierce, slash, crush, special). -/
inductive DamageType
  | pure | frost | burn | poison | mental | sonic | pierce | slash | crush
  | special
deriving DecidableEq, Repr

/-- Attacker/target stat consulted for a damage type (`atk[key]` /
`trg[key]`). The pure type never reaches this lookup (pure damage bypasses the
formula) and the special type has no matching `CreatureStats` property (its
lookup is `undefined`, handled in `applyDamageStep`); both are mapped to 0
here and never consulted. -/
def typeStat (s : CreatureStats) : DamageType → ℚ
  | .frost => s.num .frost
  | .burn => s.num .burn
  | .poison => s.num .poison
  | .mental => s.num .mental
  | .sonic => s.num .sonic
  | .pierce => s.num .pierce
  | .slash => s.num .slash
  | .crush => s.num .crush
  | .pure => 0
  | .special => 0

/-- Closed form of the per-type damage points for the stat-backed types
(everything except special, whose points are `NaN`): the raw amount for pure,
the rounded mitigation formula otherwise. -/
def damagePoints (atk trg : CreatureStats) (area : ℚ) (k : DamageType)
    (v : ℚ) : ℚ :=
  match k with
  | .pure => v
  | k =>
      (jsRound (v * (1 + (atk.num .offense - trg.num .defense / area
        + typeStat atk k - typeStat trg k) / 100)) : ℚ)

/-- One iteration of the `Damage.applyDamage()` loop: pure bypasses the
defense calculation; the special type reads `atk['special']`/`trg['special']`,
which `CreatureStats` does not define, so the arithmetic and `Math.round`
yield `NaN`; every other type applies the rounded mitigation formula. The
points are recorded per type and added to the running total. -/
def applyDamageStep (atk trg : CreatureStats) (area : ℚ)
    (acc : List (DamageType × JSNum) × JSNum) (p : DamageType × ℚ) :
    List (DamageType × JSNum) × JSNum :=
  let points : JSNum :=
    match p.1 with
    | .pure => .fin p.2
    | .special => .nan
    | k =>
        .fin (jsRound (p.2 * (1 + (atk.num .offense - trg.num .defense / area
          + typeStat atk k - typeStat trg k) / 100)))
  (acc.1 ++ [(p.1, points)], acc.2.add points)

/-- `Damage.applyDamage()` (the `Damage` class source document, alongside
trap.ts): iterate the per-type amount map accumulating per-type points and
their running total, then apply `Math.max(total, 1)`. Returns the per-type
points and the total. -/
def applyDamage (atk trg : CreatureStats) (area : ℚ)
    (damages : List (DamageType × ℚ)) : List (DamageType × JSNum) × JSNum :=
  let r := damages.foldl (applyDamageStep atk trg area) ([], .fin 0)
  (r.1, jsMax r.2 (.fin 1))

theorem JSNum_add_fin (a b : ℚ) : (JSNum.fin a).add (JSNum.fin b) = .fin (a + b) := rfl

theorem applyDamageStep_eq_of_ne_special (atk trg : CreatureStats) (area : ℚ)
    (acc : List (DamageType × JSNum) × JSNum) (p : DamageType × ℚ)
    (hp : p.1 ≠ DamageType.special) :
    applyDamageStep atk trg area acc p
      = (acc.1 ++ [(p.1, .fin (damagePoints atk trg area p.1 p.2))],
          acc.2.add (.fin (damagePoints atk trg area p.1 p.2))) := by
  obtain ⟨k, v⟩ := p
  cases k <;> first | rfl | exact absurd rfl hp

theorem applyDamage_foldl (atk trg : CreatureStats) (area : ℚ) :
    ∀ (l : List (DamageType × ℚ)) (acc : List (DamageType × JSNum)) (a : ℚ),
      (∀ p ∈ l, p.1 ≠ DamageType.special) →
      l.foldl (applyDamageStep atk trg area) (acc, .fin a)
        = (acc ++ l.map (fun p => (p.1, JSNum.fin (damagePoints atk trg area p.1 p.2))),
            .fin (a + (l.map (fun p => damagePoints atk trg area p.1 p.2)).sum)) := by
  intro l
  induction l with
  | nil => intro acc a _; simp
  | cons p rest ih =>
      intro acc a hns
      rw [List.foldl_cons,
        applyDamageStep_eq_of_ne_special atk trg area (acc, .fin a) p
          (hns p (List.mem_cons_self p rest)), JSNum_add_fin,
        ih _ _ (fun x hx => hns x (List.mem_cons_of_mem p hx))]
      simp [add_assoc]

/-- Claim C2 (amended): for a per-type amount map containing no special
entry, `applyDamage()` returns the raw amount unmodified for the pure type,
`round(raw * (1 + (attackerOffense - targetDefense/area + attackerTypeStat - targetTypeStat)/100))`
for every other stat-backed type, and a total equal to the sum of all
per-type points floored at 1 (a computed sum ≤ 0 yields total 1). An entry of
the special type instead makes its points and the total `NaN` (undefined stat
lookups), see the counterexample. -/
theorem applyDamage_formula (atk trg : CreatureStats) (area : ℚ)
    (damages : List (DamageType × ℚ))
    (hns : ∀ p ∈ damages, p.1 ≠ DamageType.special) :
    (applyDamage atk trg area damages).1
        = damages.map (fun p => (p.1, JSNum.fin (damagePoints atk trg area p.1 p.2))) ∧
    (∀ v : ℚ, damagePoints atk trg area .pure v = v) ∧
    (∀ (k : DamageType) (v : ℚ), k ≠ .pure →
      damagePoints atk trg area k v
        = (jsRound (v * (1 + (atk.num .offense - trg.num .defense / area
            + typeStat atk k - typeStat trg k) / 100)) : ℚ)) ∧
    (applyDamage atk trg area damages).2
        = .fin (max ((damages.map (fun p => damagePoints atk trg area p.1 p.2)).sum) 1) ∧
    ((damages.map (fun p => damagePoints atk trg area p.1 p.2)).sum ≤ 0 →
      (applyDamage atk trg area damages).2 = .fin 1) := by
  have hfold := applyDamage_foldl atk trg area damages [] 0 hns
  refine ⟨?_, fun v => rfl, ?_, ?_, ?_⟩
  · rw [applyDamage, hfold]; simp
  · intro k v hk; cases k <;> first | rfl | exact absurd rfl hk
  · rw [applyDamage, hfold]
    simp only [List.nil_append, zero_add]
    rfl
  · intro hsum
    rw [applyDamage, hfold]
    simp only [List.nil_append, zero_add]
    show JSNum.fin (max _ 1) = JSNum.fin 1
    rw [max_eq_right (by linarith)]

/-- Attacker stats of the spec's worked example: offense 20, frost 0. -/
def atkEx : CreatureStats :=
  { num := fun k => if k = .offense then 20 else 0,
    moveable := true, fatigueImmunity := false }

/-- Target stats of the spec's worked example: defense 10, frost 5. -/
def trgEx : CreatureStats :=
  { num := fun k => if k = .defense then 10 else if k = .frost then 5 else 0,
    moveable := true, fatigueImmunity := false }

/-- Claim C2 (counterexample): on the map `{special: 10}` the real
`applyDamage` does NOT return the rounded formula for the non-pure type nor a
sum floored at 1 — the undefined `atk['special']`/`trg['special']` lookups
make the per-type points `NaN`, and `Math.max(NaN, 1)` leaves the total `NaN`,
which is no finite number at all. -/
theorem applyDamage_special_nan :
    (applyDamage atkEx trgEx 1 [(DamageType.special, 10)]).1
        = [(DamageType.special, JSNum.nan)] ∧
    (applyDamage atkEx trgEx 1 [(DamageType.special, 10)]).2 = JSNum.nan ∧
    (∀ q : ℚ, (applyDamage atkEx trgEx 1 [(DamageType.special, 10)]).2
        ≠ JSNum.fin q) := by
  refine ⟨rfl, rfl, ?_⟩
  intro q h
  exact JSNum.noConfusion h

theorem applyDamage_formula_witness :
    ((∀ p ∈ [(DamageType.frost, (10 : ℚ))], p.1 ≠ DamageType.special) ∧
      ((10 : ℚ) ≤ 0 → False)) ∧
    (applyDamage atkEx trgEx 1 [(DamageType.frost, 10)]).1
        = [(DamageType.frost, 10)].map
            (fun p => (p.1, JSNum.fin (damagePoints atkEx trgEx 1 p.1 p.2))) ∧
    damagePoints atkEx trgEx 1 DamageType.frost 10 = 11 :=
  ⟨⟨by decide, fun h => by norm_num at h⟩,
    (applyDamage_formula atkEx trgEx 1 [(DamageType.frost, 10)] (by decide)).1,
    by
      have harg : (10 : ℚ) * (1 + (atkEx.num .offense - trgEx.num .defense / 1
          + typeStat atkEx .frost - typeStat trgEx .frost) / 100) = 21 / 2 := by
        simp [typeStat, atkEx, trgEx]
        norm_num
      have h2 : (21 : ℚ) / 2 + 1 / 2 = 11 := by norm_num
      have hfloor : jsRound (21 / 2) = 11 := by rw [jsRound, h2]; norm_num
      show (jsRound ((10 : ℚ) * (1 + (atkEx.num .offense - trgEx.num .defense / 1
          + typeStat atkEx .frost - typeStat trgEx .frost) / 100)) : ℚ) = 11
      rw [harg, hfloor]
      norm_num⟩

/-- Creature at 15/20 health used to evaluate `heal` on a negative amount. -/
def healVictim : Creature :=
  { id := 7, baseStats := constStats 20, stats := constStats 20,
    health := 15, endurance := 20, energy := 20, remainingMove := 0 }

/-- Creature already at 0 health (below the 1-hp floor). -/
def healVictimZero : Creature :=
  { id := 8, baseStats := constStats 20, stats := constStats 20,
    health := 0, endurance := 20, energy := 20, remainingMove := 0 }

/-- Claim C3 (code bug, evaluation): the "Cap to 1hp" branch of
`Creature.heal` sets `amount = this.health - 1` (instead of `1 - this.health`),
so final health becomes `2*health - 1`. At 15/20 health, `heal(-20)` yields
health 29, exceeding the maximum of 20; at 0 health, `heal(0)` yields
health -1, dropping below the claimed floor of 1. -/
theorem heal_cap_to_one_violated :
    (healVictim.heal (-20) true).1.health = 29 ∧
    healVictim.stats.num .health = 20 ∧
    ¬ (healVictim.heal (-20) true).1.health ≤ healVictim.stats.num .health ∧
    (healVictimZero.heal 0 false).1.health = -1 ∧
    ¬ 1 ≤ (healVictimZero.heal 0 false).1.health := by
  refine ⟨?_, rfl, ?_, ?_, ?_⟩ <;>
    simp [Creature.heal, healVictim, healVictimZero, constStats] <;> norm_num

/-- Claim C9: each of `recharge`, `restoreEndurance` and `restoreMovement`
sets its pool to `min(maximum, current + amount)`; for a negative amount with
`current + amount < 0`, the pool goes strictly below zero (these operations
have no lower bound). -/
theorem restore_ops_clamp_only_above (c : Creature) (amount : ℚ) :
    (c.recharge amount).1.energy = min (c.stats.num .energy) (c.energy + amount) ∧
    (c.restoreEndurance amount).1.endurance
      = min (c.stats.num .endurance) (c.endurance + amount) ∧
    (c.restoreMovement amount).1.remainingMove
      = min (c.stats.num .movement) (c.remainingMove + amount) ∧
    (c.energy + amount < 0 → (c.recharge amount).1.energy < 0) ∧
    (c.endurance + amount < 0 → (c.restoreEndurance amount).1.endurance < 0) ∧
    (c.remainingMove + amount < 0 →
      (c.restoreMovement amount).1.remainingMove < 0) := by
  refine ⟨rfl, rfl, rfl, ?_, ?_, ?_⟩ <;>
    intro h <;>
    simp [Creature.recharge, Creature.restoreEndurance,
      Creature.restoreMovement] <;>
    exact Or.inr h

theorem restore_ops_clamp_only_above_witness :
    healVictim.energy + (-50) < 0 ∧
    ((healVictim.recharge (-50)).1.energy
        = min (healVictim.stats.num .energy) (healVictim.energy + (-50)) ∧
      (healVictim.restoreEndurance (-50)).1.endurance
        = min (healVictim.stats.num .endurance) (healVictim.endurance + (-50)) ∧
      (healVictim.restoreMovement (-50)).1.remainingMove
        = min (healVictim.stats.num .movement) (healVictim.remainingMove + (-50)) ∧
      (healVictim.energy + (-50) < 0 → (healVictim.recharge (-50)).1.energy < 0) ∧
      (healVictim.endurance + (-50) < 0 →
        (healVictim.restoreEndurance (-50)).1.endurance < 0) ∧
      (healVictim.remainingMove + (-50) < 0 →
        (healVictim.restoreMovement (-50)).1.remainingMove < 0)) :=
  ⟨by norm_num [healVictim, constStats], restore_ops_clamp_only_above healVictim (-50)⟩

/-- The `Damage` value object as consumed by `Creature.takeDamage` (the
`Damage` class is embedded above as `applyDamage`): `takeDamage` only reads
`applyDamage().total` — carried here as `computedTotal`, an arbitrary JS
number, a sound over-approximation of what `applyDamage` can return (`NaN` is
genuinely reachable via the special damage type) — plus the `status` string,
the attacker and the rider effects. -/
structure Damage where
  attackerId : ℕ
  status : String := ""
  computedTotal : JSNum
  attachedEffects : List Effect := []
  noLog : Bool := false

/-- Kernel of `Creature.die(killer)`: set `dead` and fire `onCreatureDeath`.
Scoring, drop spawning and queue removal concern other components and are
elided. -/
def Creature.die (c : Creature) : Creature × List GameEvent :=
  ({ c with dead := true },
    [GameEvent.log "is dead", GameEvent.onCreatureDeath c.id])

/-- `Creature.addFatigue(dmgAmount)`: reduce endurance by the damage dealt,
floored at 0, unless the creature is fatigue-immune. -/
def Creature.addFatigue (c : Creature) (dmgAmount : ℚ) : Creature :=
  if !c.stats.fatigueImmunity then
    let e := c.endurance - dmgAmount
    { c with endurance := if e < 0 then 0 else e }
  else c

/-- Return value of `takeDamage` on the paths that reach the calculation:
the computed total and the kill flag (`damagesTotal = 0` on the
calculation-error path, mirroring `{ damages: 0, kill: false }`). -/
structure TakeDamageResult where
  damagesTotal : ℚ
  kill : Bool
deriving DecidableEq, Repr

/-- `Creature.takeDamage(damage, o)`: abort if already dead; fire
`onUnderAttack` and `onAttack`; when `status` is empty, check the computed
total with `isFinite` — a non-finite total hints "Error", logs, and returns
zero damage with the creature untouched — otherwise subtract health (capped at
0), add fatigue, and either die (kill result) or attach the damage's rider
effects and fire `onDamage` unless retaliation is suppressed. Non-empty
statuses short-circuit (Dodged/Shielded log only; Disintegrated dies). Grid
adjacency (melee detection), freeze-breaking and UI refresh are elided. -/
def Creature.takeDamage (c : Creature) (damage : Damage)
    (ignoreRetaliation : Bool := false) :
    Option TakeDamageResult × Creature × List GameEvent :=
  if c.dead then
    (none, c, [GameEvent.consoleInfo "is already dead, aborting takeDamage call."])
  else
    let evs0 := [GameEvent.onUnderAttack c.id, GameEvent.onAttack damage.attackerId]
    if damage.status = "" then
      match damage.computedTotal with
      | JSNum.fin dmgAmount =>
          let h1 := c.health - dmgAmount
          let c1 := { c with health := if h1 < 0 then 0 else h1 }
          let c2 := c1.addFatigue dmgAmount
          let hitEvs := [GameEvent.hint "-damage" "damage"] ++
            (if damage.noLog then [] else [GameEvent.log "is hit"])
          if c2.health ≤ 0 then
            (some { damagesTotal := dmgAmount, kill := true }, (c2.die).1,
              evs0 ++ hitEvs ++ (c2.die).2)
          else
            let c3 := damage.attachedEffects.foldl
              (fun d e => (d.addEffect e).creature) c2
            (some { damagesTotal := dmgAmount, kill := false }, c3,
              evs0 ++ hitEvs ++
                (if ignoreRetaliation then [] else [GameEvent.onDamage c.id]))
      | _ =>
          -- Check for Damage Errors
          (some { damagesTotal := 0, kill := false }, c,
            evs0 ++ [GameEvent.hint "Error" "damage",
              GameEvent.log "Oops something went wrong !"])
    else
      if damage.status = "Disintegrated" then
        (none, (c.die).1,
          evs0 ++ (if damage.noLog then [] else [GameEvent.log "has been disintegrated"])
            ++ (c.die).2 ++ [GameEvent.hint damage.status "damage"])
      else
        (none, c,
          evs0 ++ (if damage.noLog then [] else [GameEvent.log "avoided the attack"])
            ++ [GameEvent.hint damage.status "damage"])

/-- Claim C7: for a living creature, a non-finite computed damage total makes
`takeDamage` surface the "Error" hint and the log diagnostic and return
`{ damages: 0, kill: false }` with the creature state (health, endurance,
effects, dead flag — the whole record) unchanged: health is not subtracted and
death is not invoked. -/
theorem takeDamage_nonfinite_aborts (c : Creature) (d : Damage)
    (halive : c.dead = false) (hstatus : d.status = "")
    (hnf : d.computedTotal.isFinite = false) :
    c.takeDamage d =
      (some { damagesTotal := 0, kill := false }, c,
        [GameEvent.onUnderAttack c.id, GameEvent.onAttack d.attackerId,
          GameEvent.hint "Error" "damage",
          GameEvent.log "Oops something went wrong !"]) := by
  cases hct : d.computedTotal with
  | fin q => rw [hct] at hnf; simp [JSNum.isFinite] at hnf
  | posInf => simp [Creature.takeDamage, halive, hstatus, hct]
  | negInf => simp [Creature.takeDamage, halive, hstatus, hct]
  | nan => simp [Creature.takeDamage, halive, hstatus, hct]

/-- Damage whose computed total is `NaN`. -/
def nanDamage : Damage := { attackerId := 3, computedTotal := JSNum.nan }

theorem takeDamage_nonfinite_aborts_witness :
    (creatureWithX.dead = false ∧ nanDamage.status = "" ∧
      nanDamage.computedTotal.isFinite = false) ∧
    creatureWithX.takeDamage nanDamage =
      (some { damagesTotal := 0, kill := false }, creatureWithX,
        [GameEvent.onUnderAttack creatureWithX.id,
          GameEvent.onAttack nanDamage.attackerId,
          GameEvent.hint "Error" "damage",
          GameEvent.log "Oops something went wrong !"]) :=
  ⟨⟨rfl, rfl, rfl⟩,
    takeDamage_nonfinite_aborts creatureWithX nanDamage rfl rfl rfl⟩

/-- Creature with initiative stat 2 and id 501. -/
def initCreatureA : Creature :=
  { id := 501, baseStats := constStats 2, stats := constStats 2,
    health := 1, endurance := 1, energy := 1, remainingMove := 0 }

/-- Creature with initiative stat 1 and id 1. -/
def initCreatureB : Creature :=
  { id := 1, baseStats := constStats 1, stats := constStats 1,
    health := 1, endurance := 1, energy := 1, remainingMove := 0 }

/-- Claim C5 (counterexample): `getInitiative()` does NOT give a strict total
order free of ties across all creatures — two distinct creatures whose ids
differ by exactly 500 times their initiative-stat difference collide:
stat 2 / id 501 and stat 1 / id 1 both give 499. -/
theorem getInitiative_ties_exist :
    initCreatureA.id ≠ initCreatureB.id ∧
    initCreatureA.getInitiative = initCreatureB.getInitiative := by
  constructor
  · decide
  · norm_num [Creature.getInitiative, initCreatureA, initCreatureB, constStats]

/-- Claim C5 (amended): `getInitiative()` equals
`stats.initiative * 500 - id`; for two distinct creatures with EQUAL
initiative stat the values are distinct and the lower id yields the greater
value, so the order is strict among creatures of equal initiative stat (ties
remain possible between creatures of different stats whose ids differ by 500
times the stat difference). -/
theorem getInitiative_strict_on_equal_stat (c1 c2 : Creature)
    (hstat : c1.stats.num .initiative = c2.stats.num .initiative)
    (hid : c1.id ≠ c2.id) :
    c1.getInitiative = c1.stats.num .initiative * 500 - c1.id ∧
    c1.getInitiative ≠ c2.getInitiative ∧
    (c1.id < c2.id → c2.getInitiative < c1.getInitiative) := by
  refine ⟨rfl, ?_, ?_⟩
  · intro h
    rw [Creature.getInitiative, Creature.getInitiative, hstat] at h
    have hq : (c1.id : ℚ) = (c2.id : ℚ) := by linarith
    exact hid (Nat.cast_injective hq)
  · intro hlt
    have hq : (c1.id : ℚ) < (c2.id : ℚ) := by exact_mod_cast hlt
    rw [Creature.getInitiative, Creature.getInitiative, hstat]
    linarith

/-- Creature with initiative stat 1 and id 2 (same stat as `initCreatureB`). -/
def initCreatureC : Creature :=
  { id := 2, baseStats := constStats 1, stats := constStats 1,
    health := 1, endurance := 1, energy := 1, remainingMove := 0 }

theorem getInitiative_strict_on_equal_stat_witness :
    (initCreatureB.stats.num .initiative = initCreatureC.stats.num .initiative ∧
      initCreatureB.id ≠ initCreatureC.id) ∧
    (initCreatureB.getInitiative
        = initCreatureB.stats.num .initiative * 500 - initCreatureB.id ∧
      initCreatureB.getInitiative ≠ initCreatureC.getInitiative ∧
      (initCreatureB.id < initCreatureC.id →
        initCreatureC.getInitiative < initCreatureB.getInitiative)) :=
  ⟨⟨rfl, by decide⟩,
    getInitiative_strict_on_equal_stat initCreatureB initCreatureC rfl (by decide)⟩

/-- The `CreatureQueue` (creatureQueue.ts): current-round queue, next-round
queue, and the temporary preview creature. -/
structure CreatureQueue where
  queue : List Creature := []
  nextQueue : List Creature := []
  tempCreature : Option Creature := none

/-- Loop body of `CreatureQueue.addByInitiative`: insert the creature
immediately before the first entry that is delayed or has strictly lower
initiative, else push it at the end. -/
def insertByInitiative (c : Creature) : List Creature → List Creature
  | [] => [c]
  | x :: xs =>
      if x.delayed || x.getInitiative < c.getInitiative then c :: x :: xs
      else x :: insertByInitiative c xs

/-- `CreatureQueue.addByInitiative(creature, alsoAddToCurrentQueue)`. -/
def CreatureQueue.addByInitiative (q : CreatureQueue) (c : Creature)
    (alsoAddToCurrentQueue : Bool := true) : CreatureQueue :=
  { q with
    nextQueue := insertByInitiative c q.nextQueue
    queue := if alsoAddToCurrentQueue then insertByInitiative c q.queue else q.queue }

/-- `CreatureQueue.dequeue()`: `this.queue.splice(0, 1)[0]` — pop the front
(`undefined` on an empty queue). -/
def CreatureQueue.dequeue (q : CreatureQueue) : Option Creature × CreatureQueue :=
  (q.queue.head?, { q with queue := q.queue.tail })

/-- `CreatureQueue.nextRound()`: `queue` becomes a copy (`slice(0)`) of
`nextQueue` taken BEFORE the sort; `nextQueue` is then sorted descending by
`getInitiative()` (`(a, b) => b.getInitiative() - a.getInitiative()`;
`Array.prototype.sort` is stable, modelled by a stable insertion sort). -/
def CreatureQueue.nextRound (q : CreatureQueue) : CreatureQueue :=
  { q with
    queue := q.nextQueue
    nextQueue :=
      q.nextQueue.insertionSort (fun a b => b.getInitiative ≤ a.getInitiative) }

/-- `CreatureQueue.isCurrentEmpty()`. -/
def CreatureQueue.isCurrentEmpty (q : CreatureQueue) : Bool :=
  q.queue.length = 0

/-- `CreatureQueue.isNextEmpty()`. -/
def CreatureQueue.isNextEmpty (q : CreatureQueue) : Bool :=
  q.nextQueue.length = 0

/-- arrayUtils.removePos, modelled from its call sites (utility/arrayUtils is
not among the provided sources): remove the creature's occurrence from the
list, reporting whether it was found. Occurrences are identified by creature
id. -/
def removePos (c : Creature) : List Creature → Bool × List Creature
  | [] => (false, [])
  | x :: xs =>
      if x.id = c.id then (true, xs)
      else
        let r := removePos c xs
        (r.1, x :: r.2)

/-- Loop body of `CreatureQueue.delay`: skip non-delayed entries; insert
before the first delayed entry with strictly lower initiative; else append. -/
def insertDelayed (c : Creature) : List Creature → List Creature
  | [] => [c]
  | x :: xs =>
      if !x.delayed then x :: insertDelayed c xs
      else if x.getInitiative < c.getInitiative then c :: x :: xs
      else x :: insertDelayed c xs

/-- `CreatureQueue.delay(creature)`: remove the creature from the current
queue (or, if absent there and not the active creature, from the next queue)
and reinsert it at the end of that queue, ordered among the other delayed
creatures by initiative. `isActive` stands for `creature ===
game.activeCreature`. -/
def CreatureQueue.delay (q : CreatureQueue) (c : Creature) (isActive : Bool) :
    CreatureQueue :=
  let r := removePos c q.queue
  if r.1 || isActive then
    { q with queue := insertDelayed c r.2 }
  else
    let r2 := removePos c q.nextQueue
    { q with queue := r.2, nextQueue := insertDelayed c r2.2 }

/-- Repeated `dequeue()` until `isCurrentEmpty()`, collecting the dequeued
creatures (the fuel argument bounds the iteration). -/
def drainGo : ℕ → CreatureQueue → List Creature
  | 0, _ => []
  | Nat.succ n, q =>
      if q.isCurrentEmpty then []
      else
        match (q.dequeue).1 with
        | none => []
        | some c => c :: drainGo n (q.dequeue).2

/-- Dequeue until the current queue is empty. -/
def CreatureQueue.drain (q : CreatureQueue) : List Creature :=
  drainGo q.queue.length q

theorem drainGo_eq (n : ℕ) :
    ∀ q : CreatureQueue, q.queue.length ≤ n → drainGo n q = q.queue := by
  induction n with
  | zero =>
      intro q h
      have : q.queue = [] := List.length_eq_zero.mp (Nat.le_zero.mp h)
      simp [drainGo, this]
  | succ n ih =>
      intro q h
      cases hq : q.queue with
      | nil => simp [drainGo, CreatureQueue.isCurrentEmpty, hq]
      | cons c rest =>
          have hne : (q.queue.length = 0) = False := by simp [hq]
          have htail : ({ q with queue := q.queue.tail } : CreatureQueue).queue.length ≤ n := by
            rw [hq] at h ⊢
            simpa using Nat.lt_succ_iff.mp (Nat.lt_of_lt_of_le (by simp) h)
          rw [drainGo, CreatureQueue.isCurrentEmpty]
          simp only [hne, CreatureQueue.dequeue, hq, List.head?_cons, decide_False,
            Bool.false_eq_true, if_false]
          rw [ih _ (by simpa [hq] using htail)]
          simp [hq]

theorem drain_eq_queue (q : CreatureQueue) : q.drain = q.queue :=
  drainGo_eq q.queue.length q (Nat.le_refl _)

/-- Adjacent entries ordered by non-increasing `getInitiative()`. -/
def sortedDescInit : List Creature → Bool
  | [] => true
  | [_] => true
  | a :: b :: rest =>
      decide (b.getInitiative ≤ a.getInitiative) && sortedDescInit (b :: rest)

/-- Claim C4 (amended): `nextRound()` followed by `dequeue()` until the
current queue is empty yields exactly the members of the prior `nextQueue`,
in the order that queue already held — `nextRound` copies `nextQueue` into
`queue` BEFORE the in-place descending-initiative sort, which therefore
affects only the next round. The drained order coincides with the
descending-initiative / delayed-placement order only when the prior
`nextQueue` already held that order. -/
theorem nextRound_drain_eq_prior_nextQueue (q : CreatureQueue) :
    (q.nextRound).drain = q.nextQueue ∧
    (q.nextRound).nextQueue
      = q.nextQueue.insertionSort (fun a b => b.getInitiative ≤ a.getInitiative) :=
  ⟨drain_eq_queue _, rfl⟩

/-- Queue state whose next round holds two non-delayed creatures in
ascending initiative order (498 then 499). -/
def qBad : CreatureQueue :=
  { queue := [], nextQueue := [initCreatureC, initCreatureB] }

/-- Claim C4 (counterexample): the claim fails as frozen ("for every queue
state ... in the order established by sorting descending by
getInitiative()"): with no creature delayed (so the placement rules change
nothing), draining after `nextRound()` can come out in ASCENDING initiative
order — the code drains the prior `nextQueue` unsorted, because the copy is
taken before the sort. -/
theorem nextRound_drain_not_initiative_sorted :
    (∀ c ∈ qBad.nextQueue, c.delayed = false) ∧
    initCreatureC.getInitiative < initCreatureB.getInitiative ∧
    (qBad.nextRound).drain = [initCreatureC, initCreatureB] ∧
    sortedDescInit ((qBad.nextRound).drain) = false := by
  have hlt : initCreatureC.getInitiative < initCreatureB.getInitiative := by
    rw [Creature.getInitiative, Creature.getInitiative]
    norm_num [initCreatureB, initCreatureC, constStats]
  have hdrain : (qBad.nextRound).drain = [initCreatureC, initCreatureB] :=
    drain_eq_queue _
  refine ⟨by decide, hlt, hdrain, ?_⟩
  rw [hdrain]
  simp [sortedDescInit, not_le.mpr hlt]

/-- Guard of `Game.triggerDeleteEffect`:
`effect.turnLifetime > 0 && trigger === effect.deleteTrigger && turn - effect.creationTurn >= effect.turnLifetime`. -/
def shouldDelete (turn : ℤ) (trigger : String) (e : Effect) : Bool :=
  0 < e.turnLifetime && trigger == e.deleteTrigger
    && e.turnLifetime ≤ turn - e.creationTurn

/-- `Effect.deleteEffect()`: a hex-staged effect warns and returns; otherwise
splice the effect (found by identity, i.e. by id) out of the target creature's
effect list and out of the global registry — each with a warning when absent —
then recompute the target's stats. The modelled `GameState` tracks a single
creature, which stands for the effect's target (the C8 theorem assumes every
listed effect targets it); the UI refresh (`updateHealth`) is elided. -/
def Effect.deleteEffect (e : Effect) (g : GameState) : GameState × List GameEvent :=
  match e.target with
  | EffTarget.hex =>
      (g, [GameEvent.consoleWarn "Attempting to deleteEffect() on unsupported target."])
  | EffTarget.creature _ =>
      let onTarget := g.creature.effects.any (fun x => x.id == e.id)
      let c1 := { g.creature with
        effects := g.creature.effects.eraseP (fun x => x.id == e.id) }
      let inRegistry := g.effects.any (fun x => x.id == e.id)
      let regEffects := g.effects.eraseP (fun x => x.id == e.id)
      ({ g with creature := c1.updateAlteration, effects := regEffects },
        (if onTarget then []
          else [GameEvent.consoleWarn "Failed to find effect on target."]) ++
        (if inRegistry then []
          else [GameEvent.consoleWarn "Failed to find effect on game."]))

/-- Loop of `Game.triggerDeleteEffect` over the target creature's effects:
each effect is examined once (the source's `i--`/`totalEffects--` compensate
for the in-place splice) and deleted when the guard matches. -/
def triggerDeleteLoop (trigger : String) :
    List Effect → GameState → GameState × List GameEvent
  | [], g => (g, [])
  | e :: rest, g =>
      if shouldDelete g.turn trigger e then
        let r1 := e.deleteEffect g
        let r2 := triggerDeleteLoop trigger rest r1.1
        (r2.1, r1.2 ++ r2.2)
      else
        triggerDeleteLoop trigger rest g

/-- `Game.triggerDeleteEffect(trigger, creature)` for a specific creature
(the variant receiving "all" instead of a creature iterates the registry). -/
def GameState.triggerDeleteEffect (g : GameState) (trigger : String) :
    GameState × List GameEvent :=
  triggerDeleteLoop trigger g.creature.effects g

theorem updateAlteration_baseStats (c : Creature) :
    (c.updateAlteration).baseStats = c.baseStats := rfl

theorem updateAlteration_dropCollection (c : Creature) :
    (c.updateAlteration).dropCollection = c.dropCollection := rfl

theorem updateAlteration_id (c : Creature) : (c.updateAlteration).id = c.id := rfl

theorem updateAlteration_stats (c : Creature) :
    (c.updateAlteration).stats = recomputeStats c.baseStats (buffDebuffEntries c) := rfl

theorem buffDebuffEntries_congr (c₁ c₂ : Creature) (h1 : c₁.effects = c₂.effects)
    (h2 : c₁.dropCollection = c₂.dropCollection) :
    buffDebuffEntries c₁ = buffDebuffEntries c₂ := by
  rw [buffDebuffEntries, buffDebuffEntries, h1, h2]

theorem eraseP_id_eq_filter (a : ℕ) :
    ∀ l : List Effect, (l.map Effect.id).Nodup →
      l.eraseP (fun x => x.id == a) = l.filter (fun x => !(x.id == a)) := by
  intro l
  induction l with
  | nil => intro _; rfl
  | cons e rest ih =>
      intro hnd
      rw [List.map_cons, List.nodup_cons] at hnd
      by_cases h : e.id = a
      · rw [List.eraseP_cons_of_pos (by simp [h]), List.filter_cons_of_neg (by simp [h])]
        have : ∀ x ∈ rest, (!(x.id == a)) = true := by
          intro x hx
          have : x.id ≠ a := by
            intro hxa
            exact hnd.1 (h ▸ hxa ▸ List.mem_map_of_mem Effect.id hx)
          simp [this]
        exact ((List.filter_eq_self).mpr this).symm
      · rw [List.eraseP_cons_of_neg (by simp [h]), List.filter_cons_of_pos (by simp [h]),
          ih hnd.2]

/-- Characterization of the deletion loop. `pre` is the already-scanned kept
prefix of the creature's effect list; the loop deletes from the live list
exactly the guarded effects of `l`, removes the same effects (by id) from the
global registry, and its last deletion leaves the target's stats recomputed
from the surviving effects. -/
theorem triggerDeleteLoop_spec (trigger : String) :
    ∀ (l pre : List Effect) (g : GameState),
      g.creature.effects = pre ++ l →
      ((pre ++ l).map Effect.id).Nodup →
      (g.effects.map Effect.id).Nodup →
      (∀ e ∈ l, e.target = EffTarget.creature g.creature.id) →
      (triggerDeleteLoop trigger l g).1.creature.effects
          = pre ++ l.filter (fun e => !shouldDelete g.turn trigger e) ∧
      (triggerDeleteLoop trigger l g).1.effects
          = g.effects.filter (fun x =>
              !((l.filter (shouldDelete g.turn trigger)).map Effect.id).contains x.id) ∧
      (triggerDeleteLoop trigger l g).1.creature.baseStats = g.creature.baseStats ∧
      (triggerDeleteLoop trigger l g).1.creature.dropCollection
          = g.creature.dropCollection ∧
      (triggerDeleteLoop trigger l g).1.creature.id = g.creature.id ∧
      (triggerDeleteLoop trigger l g).1.turn = g.turn ∧
      (l.filter (shouldDelete g.turn trigger) = [] →
        (triggerDeleteLoop trigger l g).1 = g) ∧
      (l.filter (shouldDelete g.turn trigger) ≠ [] →
        (triggerDeleteLoop trigger l g).1.creature.stats
          = recomputeStats g.creature.baseStats
              (buffDebuffEntries { g.creature with
                effects := pre ++ l.filter (fun e => !shouldDelete g.turn trigger e) })) := by
  intro l
  induction l with
  | nil =>
      intro pre g hce _ _ _
      refine ⟨?_, ?_, rfl, rfl, rfl, rfl, fun _ => rfl, fun h => absurd rfl h⟩
      · simpa [triggerDeleteLoop] using hce
      · simp [triggerDeleteLoop]
  | cons e rest ih =>
      intro pre g hce hnd hreg htgt
      by_cases hsd : shouldDelete g.turn trigger e = true
      · -- the head effect is deleted
        obtain htc := htgt e (List.mem_cons_self e rest)
        have herase : g.creature.effects.eraseP (fun x => x.id == e.id) = pre ++ rest := by
          rw [hce]
          have hpre : ∀ b ∈ pre, ¬((fun x => x.id == e.id) b = true) := by
            intro b hb hba
            have hba' : b.id = e.id := by simpa using hba
            have : (pre ++ e :: rest).map Effect.id
                = pre.map Effect.id ++ e.id :: rest.map Effect.id := by simp
            rw [this] at hnd
            exact (List.disjoint_of_nodup_append hnd)
              (hba' ▸ List.mem_map_of_mem Effect.id hb) (List.mem_cons_self _ _)
          rw [List.eraseP_append_right _ hpre, List.eraseP_cons_of_pos (by simp)]
        have hg1 : (e.deleteEffect g).1 = { g with
            creature := Creature.updateAlteration { g.creature with effects := pre ++ rest },
            effects := g.effects.eraseP (fun x => x.id == e.id) } := by
          rw [Effect.deleteEffect]
          rw [htc]
          simp [herase]
        have hloop : (triggerDeleteLoop trigger (e :: rest) g).1
            = (triggerDeleteLoop trigger rest (e.deleteEffect g).1).1 := by
          rw [triggerDeleteLoop]
          simp [hsd]
        -- facts about the intermediate state
        have hg1ce : (e.deleteEffect g).1.creature.effects = pre ++ rest := by
          rw [hg1, updateAlteration_effects]
        have hg1base : (e.deleteEffect g).1.creature.baseStats = g.creature.baseStats := by
          rw [hg1, updateAlteration_baseStats]
        have hg1drop : (e.deleteEffect g).1.creature.dropCollection
            = g.creature.dropCollection := by rw [hg1, updateAlteration_dropCollection]
        have hg1id : (e.deleteEffect g).1.creature.id = g.creature.id := by
          rw [hg1, updateAlteration_id]
        have hg1turn : (e.deleteEffect g).1.turn = g.turn := by rw [hg1]
        have hg1reg : (e.deleteEffect g).1.effects
            = g.effects.eraseP (fun x => x.id == e.id) := by rw [hg1]
        have hsub : List.Sublist ((pre ++ rest).map Effect.id)
            ((pre ++ e :: rest).map Effect.id) :=
          List.Sublist.map _ ((List.sublist_cons_self e rest).append_left pre)
        have hnd' : ((pre ++ rest).map Effect.id).Nodup := hnd.sublist hsub
        have hreg' : ((e.deleteEffect g).1.effects.map Effect.id).Nodup := by
          rw [hg1reg]
          exact hreg.sublist (List.Sublist.map _ (List.eraseP_sublist _))
        have htgt' : ∀ x ∈ rest, x.target
            = EffTarget.creature (e.deleteEffect g).1.creature.id := by
          intro x hx
          rw [hg1id]
          exact htgt x (List.mem_cons_of_mem e hx)
        obtain ⟨ih1, ih2, ih3, ih4, ih5, ih6, ih7, ih8⟩ :=
          ih pre (e.deleteEffect g).1 hg1ce hnd' hreg' htgt'
        rw [hg1turn] at ih1 ih2 ih7 ih8
        have hkeep : (e :: rest).filter (fun x => !shouldDelete g.turn trigger x)
            = rest.filter (fun x => !shouldDelete g.turn trigger x) := by
          simp [hsd]
        have hdel : (e :: rest).filter (shouldDelete g.turn trigger)
            = e :: rest.filter (shouldDelete g.turn trigger) := by
          simp [hsd]
        refine ⟨?_, ?_, ?_, ?_, ?_, ?_, ?_, ?_⟩
        · rw [hloop, ih1, hkeep]
        · -- registry: merge the head erase with the recursive filter
          rw [hloop, ih2, hg1reg, eraseP_id_eq_filter e.id g.effects hreg,
            List.filter_filter, hdel]
          refine List.filter_congr ?_
          intro x _
          simp [List.contains_cons, Bool.and_comm]
        · rw [hloop, ih3, hg1base]
        · rw [hloop, ih4, hg1drop]
        · rw [hloop, ih5, hg1id]
        · rw [hloop, ih6, hg1turn]
        · intro hnil
          rw [hdel] at hnil
          exact absurd hnil (List.cons_ne_nil _ _)
        · intro _
          rw [hloop, hkeep]
          by_cases hrest : rest.filter (shouldDelete g.turn trigger) = []
          · have hkept : rest.filter (fun x => !shouldDelete g.turn trigger x) = rest := by
              refine (List.filter_eq_self).mpr ?_
              intro x hx
              have := (List.filter_eq_nil_iff).mp hrest x hx
              simp at this
              simp [this]
            rw [ih7 hrest, hg1, hkept]
            rw [updateAlteration_stats]
          · rw [ih8 hrest, hg1base]
            refine congrArg _ (buffDebuffEntries_congr _ _ rfl ?_)
            rw [hg1drop]
      · -- the head effect is kept; it joins the scanned prefix
        rw [Bool.not_eq_true] at hsd
        have hloop : triggerDeleteLoop trigger (e :: rest) g
            = triggerDeleteLoop trigger rest g := by
          rw [triggerDeleteLoop]
          simp [hsd]
        have hce' : g.creature.effects = (pre ++ [e]) ++ rest := by
          rw [hce]; simp
        have hnd'' : (((pre ++ [e]) ++ rest).map Effect.id).Nodup := by
          simpa using hnd
        have htgt'' : ∀ x ∈ rest, x.target = EffTarget.creature g.creature.id :=
          fun x hx => htgt x (List.mem_cons_of_mem e hx)
        obtain ⟨ih1, ih2, ih3, ih4, ih5, ih6, ih7, ih8⟩ :=
          ih (pre ++ [e]) g hce' hnd'' hreg htgt''
        have hkeep : (e :: rest).filter (fun x => !shouldDelete g.turn trigger x)
            = e :: rest.filter (fun x => !shouldDelete g.turn trigger x) := by
          simp [hsd]
        have hdel : (e :: rest).filter (shouldDelete g.turn trigger)
            = rest.filter (shouldDelete g.turn trigger) := by
          simp [hsd]
        refine ⟨?_, ?_, ?_, ?_, ?_, ?_, ?_, ?_⟩
        · rw [hloop, ih1, hkeep]; simp
        · rw [hloop, ih2, hdel]
        · rw [hloop, ih3]
        · rw [hloop, ih4]
        · rw [hloop, ih5]
        · rw [hloop, ih6]
        · intro hnil
          rw [hloop]
          exact ih7 (by rw [hdel] at hnil; exact hnil)
        · intro hne
          rw [hloop, ih8 (by rw [hdel] at hne; exact hne), hkeep]
          refine congrArg _ (buffDebuffEntries_congr _ _ ?_ rfl)
          simp

/-- Claim C8: firing a delete-trigger event on a creature removes exactly
those of its effects with `turnLifetime > 0`, matching `deleteTrigger`, and
`currentTurn - creationTurn >= turnLifetime` — each removed both from the
creature's effect list and from the global effect registry — and, whenever at
least one effect is deleted, forces a stat recompute on the target (its
`stats` equal the recomputation from the surviving effects). Effects not
meeting the condition (e.g. `turnLifetime = 1`, created on turn 3, trigger
firing on turn 3) survive unchanged. -/
theorem triggerDeleteEffect_spec (g : GameState) (trigger : String)
    (hnd : (g.creature.effects.map Effect.id).Nodup)
    (hreg : (g.effects.map Effect.id).Nodup)
    (htgt : ∀ e ∈ g.creature.effects, e.target = EffTarget.creature g.creature.id) :
    (g.triggerDeleteEffect trigger).1.creature.effects
        = g.creature.effects.filter (fun e => !shouldDelete g.turn trigger e) ∧
    (g.triggerDeleteEffect trigger).1.effects
        = g.effects.filter (fun x =>
            !((g.creature.effects.filter (shouldDelete g.turn trigger)).map
                Effect.id).contains x.id) ∧
    (g.creature.effects.filter (shouldDelete g.turn trigger) ≠ [] →
      (g.triggerDeleteEffect trigger).1.creature.stats
        = recomputeStats g.creature.baseStats
            (buffDebuffEntries { g.creature with
              effects := g.creature.effects.filter
                (fun e => !shouldDelete g.turn trigger e) })) := by
  obtain ⟨h1, h2, _, _, _, _, _, h8⟩ :=
    triggerDeleteLoop_spec trigger g.creature.effects [] g (by simp) (by simpa using hnd)
      hreg htgt
  exact ⟨h1, h2, h8⟩

/-- Effect of the spec scenario: `turnLifetime = 1`, default `deleteTrigger`
"onStartOfRound", created on turn 3, targeting creature 9. -/
def lifeEffect : Effect :=
  { id := 31, name := "L", ownerId := 7, target := EffTarget.creature 9,
    creationTurn := 3, turnLifetime := 1 }

/-- Creature 9 carrying `lifeEffect`. -/
def lifeCreature : Creature :=
  { id := 9, baseStats := constStats 20, stats := constStats 20,
    health := 20, endurance := 20, energy := 20, remainingMove := 0,
    effects := [lifeEffect] }

/-- Game state on turn 3 (the effect's creation turn). -/
def gTurn3 : GameState :=
  { turn := 3, effectId := 32, effects := [lifeEffect], creature := lifeCreature }

/-- Game state on turn 4. -/
def gTurn4 : GameState :=
  { turn := 4, effectId := 32, effects := [lifeEffect], creature := lifeCreature }

theorem triggerDeleteEffect_spec_witness :
    ((gTurn3.creature.effects.map Effect.id).Nodup ∧
      (gTurn3.effects.map Effect.id).Nodup ∧
      (∀ e ∈ gTurn3.creature.effects,
        e.target = EffTarget.creature gTurn3.creature.id) ∧
      (gTurn4.creature.effects.map Effect.id).Nodup ∧
      (gTurn4.effects.map Effect.id).Nodup ∧
      (∀ e ∈ gTurn4.creature.effects,
        e.target = EffTarget.creature gTurn4.creature.id)) ∧
    shouldDelete 3 "onStartOfRound" lifeEffect = false ∧
    shouldDelete 4 "onStartOfRound" lifeEffect = true ∧
    (gTurn3.triggerDeleteEffect "onStartOfRound").1.creature.effects
        = [lifeEffect] ∧
    (gTurn4.triggerDeleteEffect "onStartOfRound").1.creature.effects = [] ∧
    (gTurn4.triggerDeleteEffect "onStartOfRound").1.effects = [] := by
  have h3 := triggerDeleteEffect_spec gTurn3 "onStartOfRound"
    (by decide) (by decide) (by decide)
  have h4 := triggerDeleteEffect_spec gTurn4 "onStartOfRound"
    (by decide) (by decide) (by decide)
  have hs3 : shouldDelete 3 "onStartOfRound" lifeEffect = false := by decide
  have hs4 : shouldDelete 4 "onStartOfRound" lifeEffect = true := by decide
  refine ⟨⟨by decide, by decide, by decide, by decide, by decide, by decide⟩,
    hs3, hs4, ?_, ?_, ?_⟩
  · rw [h3.1]; simp [gTurn3, lifeCreature, hs3]
  · rw [h4.1]; simp [gTurn4, lifeCreature, hs4]
  · rw [h4.2.1]; simp [gTurn4, lifeCreature, hs4]

end AncientBeast
